import Mathlib

/-!
Verification of the runtime core of `tags-lsp` (src/src/main.c): command-line
option parsing, the shutdown orchestrator (`_at_exit` and its stages), the
exit-notifier callback, and — modelled from the specification, since its
implementation lives outside the provided sources — the streaming frame
decoder.

Command-line arguments are modelled as `List Char` (C strings), the global
`g_tags` context as an explicit record, and the event-loop interactions
(`uv_run` results, the external work-queue size) as an oracle environment.
Observable behaviour is captured as a trace of events.
-/

namespace TagsLsp

/-- A C command-line argument (NUL-terminated char array, minus the NUL). -/
abbrev Arg := List Char

/-! ### Model of `sscanf(opt, "%d", &ret)` from C stdlib semantics:
skip leading whitespace, optional sign, then at least one decimal digit.
Returns `none` when no integer can be scanned (sscanf returns 0/EOF). -/

def isSpaceC (c : Char) : Bool :=
  c = ' ' || c = '\t' || c = '\n' || c = '\r' || c = '\x0b' || c = '\x0c'

def isDigitC (c : Char) : Bool :=
  '0' ≤ c && c ≤ '9'

def digitsToNat (ds : List Char) : Nat :=
  ds.foldl (fun a c => 10 * a + (c.toNat - '0'.toNat)) 0

def scanUnsigned (s : List Char) : Option Nat :=
  let ds := s.takeWhile isDigitC
  if ds = [] then none else some (digitsToNat ds)

def sscanfInt (s : List Char) : Option Int :=
  match s.dropWhile isSpaceC with
  | '-' :: r => (scanUnsigned r).map (fun n => -(n : Int))
  | '+' :: r => (scanUnsigned r).map (fun n => (n : Int))
  | r => (scanUnsigned r).map (fun n => (n : Int))

/-! ### Transport configuration (`tag_lsp_io_cfg_t`) -/

/-- `io_cfg->type` together with its payload (`data.file` / `data.port`). -/
inductive IoType
  | stdio
  | pipe (file : Arg)
  | port (n : Int)
deriving DecidableEq, Repr

/-- The mutable state written by `_parser_command_line_options`:
the transport choice in `io_cfg` and the log fields of `g_tags.config`. -/
structure ParseState where
  ioType : IoType
  logdir : Option Arg
  logfile : Option Arg
deriving DecidableEq, Repr

/-- How `_parser_command_line_options` terminates the process early:
`exit(EXIT_SUCCESS)` on `-h`/`--help`, `exit(EXIT_FAILURE)` on a `--port=`
value that `sscanf` cannot scan. -/
inductive ParseExit
  | helpExit
  | portError (v : Arg)
deriving DecidableEq, Repr

def hFlag : Arg := "-h".data
def helpFlag : Arg := "--help".data
def stdioFlag : Arg := "--stdio".data
def pipeOpt : Arg := "--pipe=".data
def portOpt : Arg := "--port=".data
def logdirOpt : Arg := "--logdir=".data
def logfileOpt : Arg := "--logfile=".data

/-- One iteration of the option loop in `_parser_command_line_options`
(main.c:180-240): the updated state, plus `some e` when the iteration calls
`exit`. -/
def parseArg (st : ParseState) (a : Arg) : ParseState × Option ParseExit :=
  if a = hFlag ∨ a = helpFlag then
    (st, some .helpExit)
  else if a = stdioFlag then
    ({ st with ioType := .stdio }, none)
  else if pipeOpt <+: a then
    ({ st with ioType := .pipe (a.drop 7) }, none)
  else if portOpt <+: a then
    match sscanfInt (a.drop 7) with
    | none => (st, some (.portError (a.drop 7)))
    | some n => ({ st with ioType := .port n }, none)
  else if logdirOpt <+: a then
    ({ st with logdir := some (a.drop 9) }, none)
  else if logfileOpt <+: a then
    ({ st with logfile := some (a.drop 10) }, none)
  else
    (st, none)

/-- The option loop of `_parser_command_line_options` over the whole argument
vector; stops early when an iteration exits the process. -/
def parseArgs (st : ParseState) : List Arg → ParseState × Option ParseExit
  | [] => (st, none)
  | a :: rest =>
    match parseArg st a with
    | (st1, none) => parseArgs st1 rest
    | (st1, some e) => (st1, some e)

/-- Initial state on entry to `_parser_command_line_options`:
`io_cfg->type = TAG_LSP_IO_STDIO` (main.c:177), log fields still NULL. -/
def initPS : ParseState := ⟨.stdio, none, none⟩

/-- `_parser_command_line_options` (main.c:171-241). -/
def parserCommandLineOptions (args : List Arg) : ParseState × Option ParseExit :=
  parseArgs initPS args

/-! ### Global context `g_tags` and the observable event trace -/

/-- The two reactor handles owned by main.c (`g_tags.sigint`,
`g_tags.exit_notifier`). -/
inductive HandleId
  | sigint
  | exitNotifier
deriving DecidableEq, Repr

/-- Heap resources owned by main.c and freed during teardown. -/
inductive Res
  | loopMem
  | parserRes
  | logdirStr
  | logfileStr
  | sigintMem
  | exitNotifierMem
deriving DecidableEq, Repr

/-- Observable events of the program, in program order. -/
inductive Ev
  | loopInit
  | sigintInit
  | notifierInit
  | printUsage
  | badPortMsg (v : Arg)
  | logInit
  | welcome
  | ioInit (t : IoType)
  | msgInit
  | workInit
  | parserCreate
  | mainRun
  | setShutdownFlag
  | cancelAll
  | runOnce (q : Nat)
  | methodCleanup
  | msgExit
  | ioExit
  | workExit
  | logExit
  | closeHandle (h : HandleId)
  | runDefault
  | loopClose
  | freeRes (r : Res)
  | cleanupWorkspaceFolders
  | cleanupClientCapabilities
  | libShutdown
  | abortEv
deriving DecidableEq, Repr

/-- The fields of the global `g_tags` context that main.c reads or writes.
Pointer fields are tracked as presence (`≠ NULL`). -/
structure GTags where
  loop : Bool
  parser : Bool
  logdir : Option Arg
  logfile : Option Arg
  sigint : Bool
  exitNotifier : Bool
  shutdown : Bool
  stopRequested : Bool
deriving DecidableEq, Repr

/-- `g_tags` at program start (static storage, all zero/NULL). -/
def gtags0 : GTags := ⟨false, false, none, none, false, false, false, false⟩

/-- `g_tags` after `_initialize` has set up the loop, the SIGINT watcher and
the exit notifier (main.c:289-299), just before option parsing. -/
def gtagsPreParse : GTags :=
  { gtags0 with loop := true, sigint := true, exitNotifier := true }

/-- Oracle environment for the external collaborators of main.c: the
evolution of `lsp_work_queue_size()` under one `uv_run(.., UV_RUN_ONCE)`
iteration, its value at shutdown start, a bound on modelled iterations, and
the results of the final `uv_run(.., UV_RUN_DEFAULT)` and `uv_loop_close`. -/
structure Env where
  drain : Nat → Nat
  q0 : Nat
  fuel : Nat
  runResult : Int
  closeResult : Int

/-- `_on_exit_notify` (main.c:269-273): the fixed callback the exit notifier
makes the reactor run; its body is exactly `uv_stop(g_tags.loop)`. -/
def onExitNotify (s : GTags) : GTags :=
  { s with stopRequested := true }

/-- `_wait_for_pending_task` (main.c:123-130): repeat single reactor
iterations while the work queue is non-empty.  Returns the `runOnce` events
(each recording the queue size that kept the loop going) and the queue size
that terminated the loop, or `none` if `fuel` modelled iterations were not
enough (the C loop would still be running). -/
def waitForPendingTask (drain : Nat → Nat) : Nat → Nat → Option (List Ev × Nat)
  | _, 0 => some ([], 0)
  | 0, _ + 1 => none
  | fuel + 1, q + 1 =>
    (waitForPendingTask drain fuel (drain (q + 1))).map
      (fun p => (Ev.runOnce (q + 1) :: p.1, p.2))

/-- The events of `_at_exit_stage_1`, in program order. -/
def stage1Evs : List Ev :=
  [Ev.msgExit, Ev.ioExit, Ev.workExit, Ev.logExit,
   Ev.closeHandle .sigint, Ev.closeHandle .exitNotifier]

/-- `_at_exit_stage_1` (main.c:75-85): subsystem exits, then `uv_close` on the
SIGINT watcher and the exit notifier.  No owned memory is touched. -/
def atExitStage1 (s : GTags) : GTags × List Ev :=
  (s, stage1Evs)

/-- Outcome of a teardown step: the new state, or `abort()`. -/
inductive Outcome
  | ok (s : GTags)
  | aborted
deriving DecidableEq, Repr

/-- `_cleanup_loop` (main.c:52-73): no-op when the loop is already NULL;
otherwise run the loop to completion (abort on a non-zero result), close it
(abort on failure), free it and NULL the slot. -/
def cleanupLoop (env : Env) (s : GTags) : Outcome × List Ev :=
  if s.loop = false then
    (.ok s, [])
  else if env.runResult ≠ 0 then
    (.aborted, [Ev.runDefault, Ev.abortEv])
  else if env.closeResult ≠ 0 then
    (.aborted, [Ev.runDefault, Ev.abortEv])
  else
    (.ok { s with loop := false }, [Ev.runDefault, Ev.loopClose, Ev.freeRes .loopMem])

/-- Event list `[freeRes r]` when the owning slot is non-NULL, else `[]`. -/
def freeIf (b : Bool) (r : Res) : List Ev :=
  if b then [Ev.freeRes r] else []

/-- `_at_exit_stage_2` (main.c:87-121): guarded frees, each slot NULLed as it
is freed, then workspace-folder and client-capability cleanup. -/
def atExitStage2 (s : GTags) : GTags × List Ev :=
  ({ s with parser := false, logdir := none, logfile := none,
            sigint := false, exitNotifier := false },
   freeIf s.parser .parserRes ++
   freeIf s.logdir.isSome .logdirStr ++
   freeIf s.logfile.isSome .logfileStr ++
   freeIf s.sigint .sigintMem ++
   freeIf s.exitNotifier .exitNotifierMem ++
   [Ev.cleanupWorkspaceFolders, Ev.cleanupClientCapabilities])

/-- `_at_exit` (main.c:132-149): set the shutdown flag, cancel pending
requests, drain the work queue, then the staged teardown.  `none` when the
drain loop exceeds the modelled `fuel`. -/
def atExit (env : Env) (s : GTags) : Option (Outcome × List Ev) :=
  let s1 := { s with shutdown := true }
  match waitForPendingTask env.drain env.fuel env.q0 with
  | none => none
  | some (w, _) =>
    let p1 := atExitStage1 s1
    let pre := [Ev.setShutdownFlag, Ev.cancelAll] ++ w ++ [Ev.methodCleanup] ++ p1.2
    match cleanupLoop env p1.1 with
    | (.aborted, e2) => some (.aborted, pre ++ e2)
    | (.ok s2, e2) =>
      let p3 := atExitStage2 s2
      some (.ok p3.1, pre ++ e2 ++ p3.2 ++ [Ev.libShutdown])

/-- How the modelled process run ends. -/
inductive ProcEnd
  | exited (code : Nat)
  | aborted
deriving DecidableEq, Repr

/-- `main` + `_initialize` (main.c:281-341): loop/signal/notifier setup, then
option parsing; an `exit` during parsing runs the registered `_at_exit` hook
before the process ends, otherwise initialization finishes, the main
`uv_run` executes e.g. until the exit notifier stops it, `main` returns 0 and
`_at_exit` runs. -/
def mainRun (env : Env) (args : List Arg) : Option (List Ev × ProcEnd) :=
  let initEvs := [Ev.loopInit, Ev.sigintInit, Ev.notifierInit]
  let pr := parseArgs initPS args
  let s := { gtagsPreParse with logdir := pr.1.logdir, logfile := pr.1.logfile }
  match pr.2 with
  | some .helpExit =>
    (atExit env s).map fun p =>
      (initEvs ++ [Ev.printUsage] ++ p.2,
       match p.1 with | .aborted => ProcEnd.aborted | .ok _ => ProcEnd.exited 0)
  | some (.portError v) =>
    (atExit env s).map fun p =>
      (initEvs ++ [Ev.badPortMsg v] ++ p.2,
       match p.1 with | .aborted => ProcEnd.aborted | .ok _ => ProcEnd.exited 1)
  | none =>
    (atExit env { s with parser := true }).map fun p =>
      (initEvs ++
       [Ev.logInit, Ev.welcome, Ev.ioInit pr.1.ioType, Ev.msgInit, Ev.workInit,
        Ev.parserCreate, Ev.mainRun] ++ p.2,
       match p.1 with | .aborted => ProcEnd.aborted | .ok _ => ProcEnd.exited 0)

/-! ### Spec-side description of transport selection (for the refinement
claim about last-specified-wins) -/

/-- Follows the spec's words (§6): a transport selector is one of `--stdio`,
`--pipe=<path>`, `--port=<number>`, with its payload. -/
def selectorOf (a : Arg) : Option IoType :=
  if a = stdioFlag then some .stdio
  else if pipeOpt <+: a then some (.pipe (a.drop 7))
  else if portOpt <+: a then (sscanfInt (a.drop 7)).map .port
  else none

/-- Follows the spec's words (§6): the configuration selected by the last
transport selector appearing in the argument vector, stdio when none
appears. -/
def lastSelected (args : List Arg) : IoType :=
  args.foldl (fun acc a => (selectorOf a).getD acc) IoType.stdio

/-- An argument matched by some branch of the option loop. -/
def recognizedOpt (a : Arg) : Prop :=
  a = hFlag ∨ a = helpFlag ∨ a = stdioFlag ∨
  pipeOpt <+: a ∨ portOpt <+: a ∨ logdirOpt <+: a ∨ logfileOpt <+: a

instance recognizedOptDec (a : Arg) : Decidable (recognizedOpt a) := by
  unfold recognizedOpt
  exact inferInstance

/-! ### Trace vocabulary for the temporal claims -/

/-- The fixed prefix of the `_at_exit` trace, before loop teardown. -/
def preEvs (w : List Ev) : List Ev :=
  [Ev.setShutdownFlag, Ev.cancelAll] ++ w ++ [Ev.methodCleanup] ++ stage1Evs

/-- Events that request a handle close or free an owned resource. -/
def isCloseOrFree : Ev → Bool
  | .closeHandle _ => true
  | .freeRes _ => true
  | _ => false

/-- The close/free events of a complete teardown, each listed once, in the
order the code performs them. -/
def freeCloseOrder : List Ev :=
  [Ev.closeHandle .sigint, Ev.closeHandle .exitNotifier,
   Ev.freeRes .loopMem, Ev.freeRes .parserRes, Ev.freeRes .logdirStr,
   Ev.freeRes .logfileStr, Ev.freeRes .sigintMem, Ev.freeRes .exitNotifierMem]

/-- Every event that `_at_exit` can put in its trace except the drain
iterations. -/
def teardownEvs : List Ev :=
  [Ev.setShutdownFlag, Ev.cancelAll, Ev.methodCleanup,
   Ev.msgExit, Ev.ioExit, Ev.workExit, Ev.logExit,
   Ev.closeHandle .sigint, Ev.closeHandle .exitNotifier,
   Ev.runDefault, Ev.loopClose, Ev.abortEv,
   Ev.freeRes .loopMem, Ev.freeRes .parserRes, Ev.freeRes .logdirStr,
   Ev.freeRes .logfileStr, Ev.freeRes .sigintMem, Ev.freeRes .exitNotifierMem,
   Ev.cleanupWorkspaceFolders, Ev.cleanupClientCapabilities, Ev.libShutdown]

/-- `e1` occurs strictly earlier in the trace than `e2`: the trace splits
into a part containing `e1` followed by a part containing `e2`. -/
def before (e1 e2 : Ev) (tr : List Ev) : Prop :=
  ∃ t1 t2, tr = t1 ++ t2 ∧ e1 ∈ t1 ∧ e2 ∈ t2

/-! ### Concrete data for witnesses and counterexamples -/

/-- Quiescent oracle: empty work queue, loop run and close both report 0. -/
def envQuietW : Env := ⟨fun q => q, 0, 0, 0, 0⟩

/-- Oracle with two outstanding work units, each drained by one reactor
iteration. -/
def envDrainW : Env := ⟨fun q => q - 1, 2, 5, 0, 0⟩

/-- Oracle whose final `uv_run` reports remaining activity. -/
def envAbortW : Env := ⟨fun q => q, 0, 0, 1, 0⟩

/-- A fully populated `g_tags` as after a complete successful startup. -/
def gFullW : GTags := ⟨true, true, some "d".data, some "f".data, true, true, false, false⟩

/-- The `g_tags` state after a complete teardown. -/
def gEndW : GTags := ⟨false, false, none, none, false, false, true, false⟩

/-- `_at_exit` trace from `gFullW` under `envDrainW`. -/
def trFullW : List Ev :=
  [Ev.setShutdownFlag, Ev.cancelAll, Ev.runOnce 2, Ev.runOnce 1, Ev.methodCleanup,
   Ev.msgExit, Ev.ioExit, Ev.workExit, Ev.logExit,
   Ev.closeHandle .sigint, Ev.closeHandle .exitNotifier,
   Ev.runDefault, Ev.loopClose, Ev.freeRes .loopMem,
   Ev.freeRes .parserRes, Ev.freeRes .logdirStr, Ev.freeRes .logfileStr,
   Ev.freeRes .sigintMem, Ev.freeRes .exitNotifierMem,
   Ev.cleanupWorkspaceFolders, Ev.cleanupClientCapabilities, Ev.libShutdown]

/-- `_at_exit` trace from `gtagsPreParse` under `envQuietW`. -/
def trQuietW : List Ev :=
  [Ev.setShutdownFlag, Ev.cancelAll, Ev.methodCleanup,
   Ev.msgExit, Ev.ioExit, Ev.workExit, Ev.logExit,
   Ev.closeHandle .sigint, Ev.closeHandle .exitNotifier,
   Ev.runDefault, Ev.loopClose, Ev.freeRes .loopMem,
   Ev.freeRes .sigintMem, Ev.freeRes .exitNotifierMem,
   Ev.cleanupWorkspaceFolders, Ev.cleanupClientCapabilities, Ev.libShutdown]

/-- Process trace for the command line `["--port=abc"]` under `envQuietW`. -/
def trBadPortW : List Ev :=
  [Ev.loopInit, Ev.sigintInit, Ev.notifierInit, Ev.badPortMsg "abc".data] ++ trQuietW

/-- Process trace for the command line `["--port=x", "-h"]` under
`envQuietW`. -/
def trPortThenHelpW : List Ev :=
  [Ev.loopInit, Ev.sigintInit, Ev.notifierInit, Ev.badPortMsg "x".data] ++ trQuietW

/-- Argument vector exercising last-specified-wins. -/
def c9ArgsW : List Arg := [stdioFlag, "--pipe=/p".data, "--port=8080".data]

end TagsLsp

namespace TagsLsp.Decoder

/-- Decoder witness data: the header block of the spec §8 scenario. -/
def hdrW : List Char := "Content-Length: 5\r\n\r\n".data

/-- Decoder witness data: the body of the spec §8 scenario. -/
def bodyW : List Char := "HELLO".data

/-- Decoder witness data: the spec §8 chunking, split after byte 10. -/
def chunksW : List (List Char) := ["Content-Le".data, "ngth: 5\r\n\r\nHELLO".data]

end TagsLsp.Decoder

namespace TagsLsp.Decoder

/-- Modelled from the spec: the Frame Decoder (spec §4.2, §6).  The concrete
implementation (`lsp_parser_create` / `lsp_parser_execute`, declared in
`utils/lsp_parser` headers) is not among the provided sources.  Wire framing
per the spec: a textual header block of `key: value` lines terminated by a
blank line, containing a declared content length, followed by exactly that
many bytes of body.  A decoded message is its body bytes, passed opaquely. -/
abbrev Msg := List Char

/-- Modelled from the spec: the header-block terminator, the blank line that
ends the `key: value` lines (CRLF line endings). -/
def termSeq : List Char := ['\r', '\n', '\r', '\n']

/-- Modelled from the spec: decoder states `AwaitingHeaderLine /
AccumulatingHeaders` (collapsed into `header` with the bytes of the header
block seen so far), `AwaitingBody(declaredLength)` (`body`, with the declared
length and the body bytes buffered so far), and the fatal-error state entered
on a malformed header. -/
inductive DState
  | header (acc : List Char)
  | body (need : Nat) (acc : List Char)
  | failed
deriving DecidableEq, Repr

/-- Split a byte sequence into lines at CRLF boundaries. -/
def splitCRLF : List Char → List (List Char)
  | [] => [[]]
  | [c] => [[c]]
  | c1 :: c2 :: r =>
    if c1 = '\r' ∧ c2 = '\n' then [] :: splitCRLF r
    else
      match splitCRLF (c2 :: r) with
      | [] => [[c1]]
      | l :: ls => (c1 :: l) :: ls

def clKey : List Char := "Content-Length: ".data

def parseNatDigits (l : List Char) : Option Nat :=
  if l ≠ [] ∧ l.all isDigitC then some (digitsToNat l) else none

/-- Modelled from the spec: extract the declared content length from the
bytes of a complete header block — the value of the first `Content-Length`
header line; `none` (a fatal framing error) when the line is missing or its
value is not a decimal number. -/
def contentLengthOf (hdr : List Char) : Option Nat :=
  match (splitCRLF hdr).find? (fun line => decide (clKey <+: line)) with
  | none => none
  | some line => parseNatDigits ((line.drop clKey.length).takeWhile (fun c => !isSpaceC c))

/-- Modelled from the spec: transition taken when the header-block terminator
has just been buffered: parse the declared length; a declared length of zero
emits the (empty-bodied) message at once, otherwise await the body. -/
def finishHeader (acc : List Char) : DState × List Msg :=
  match contentLengthOf acc with
  | none => (.failed, [])
  | some 0 => (.header [], [([] : Msg)])
  | some (n + 1) => (.body (n + 1) [], [])

/-- Modelled from the spec: consume one input byte.  In the header state the
byte is buffered and the block is complete exactly when the buffered bytes
end with the blank-line terminator; in the body state the byte is buffered
and the message is emitted as soon as the declared length is reached. -/
def step : DState → Char → DState × List Msg
  | .header acc, c =>
    let acc1 := acc ++ [c]
    if termSeq <:+ acc1 then finishHeader acc1 else (.header acc1, [])
  | .body n acc, c =>
    let acc1 := acc ++ [c]
    if acc1.length = n then (.header [], [acc1]) else (.body n acc1, [])
  | .failed, _ => (.failed, [])

/-- Modelled from the spec: `feed(chunk)` — consume a chunk byte by byte,
collecting the emitted messages in order. -/
def feedBytes : DState → List Char → DState × List Msg
  | s, [] => (s, [])
  | s, c :: r =>
    let p := step s c
    let q := feedBytes p.1 r
    (q.1, p.2 ++ q.2)

/-- Modelled from the spec: a sequence of `feed` calls, one per chunk. -/
def feedChunks : DState → List (List Char) → DState × List Msg
  | s, [] => (s, [])
  | s, c :: r =>
    let p := feedBytes s c
    let q := feedChunks p.1 r
    (q.1, p.2 ++ q.2)

/-- A valid header+body byte sequence: the header block ends with the
blank-line terminator, that terminator's completion is the first occurrence
of the terminator, and the declared content length equals the body length. -/
structure ValidFrame (hdr body : List Char) : Prop where
  termEnd : termSeq <:+ hdr
  noEarly : ∀ k, k < hdr.length → ¬ termSeq <:+ hdr.take k
  length_eq : contentLengthOf hdr = some body.length

end TagsLsp.Decoder

namespace TagsLsp

example : parserCommandLineOptions ["--pipe=/tmp/x".data, "--port=99".data] =
    (⟨.port 99, none, none⟩, none) := by decide

example : parserCommandLineOptions ["--port=abc".data] =
    (initPS, some (.portError "abc".data)) := by decide

example : parserCommandLineOptions ["--port=12abc".data] =
    (⟨.port 12, none, none⟩, none) := by decide

example : parserCommandLineOptions ["--logdir=/l".data, "-h".data] =
    (⟨.stdio, some "/l".data, none⟩, some .helpExit) := by decide

example : Decoder.feedBytes (.header []) "Content-Length: 5\r\n\r\nHELLO".data =
    (.header [], ["HELLO".data]) := by decide

example : Decoder.feedChunks (.header []) ["Content-Le".data, "ngth: 5\r\n\r\nHELLO".data] =
    (.header [], ["HELLO".data]) := by decide

end TagsLsp

namespace TagsLsp

/-! ### Helper lemmas about the drain loop and teardown stages -/

theorem wait_spec (d : Nat → Nat) :
    ∀ fuel q w qf, waitForPendingTask d fuel q = some (w, qf) →
      qf = 0 ∧ ∀ e ∈ w, ∃ k, e = Ev.runOnce k ∧ k ≠ 0 := by
  intro fuel
  induction fuel with
  | zero =>
    intro q w qf h
    cases q with
    | zero =>
      simp only [waitForPendingTask, Option.some.injEq, Prod.mk.injEq] at h
      obtain ⟨hw, hq⟩ := h
      subst hw; subst hq
      exact ⟨rfl, by simp⟩
    | succ n => simp [waitForPendingTask] at h
  | succ f ih =>
    intro q w qf h
    cases q with
    | zero =>
      simp only [waitForPendingTask, Option.some.injEq, Prod.mk.injEq] at h
      obtain ⟨hw, hq⟩ := h
      subst hw; subst hq
      exact ⟨rfl, by simp⟩
    | succ n =>
      simp only [waitForPendingTask, Option.map_eq_some'] at h
      obtain ⟨⟨w1, qf1⟩, hrec, heq⟩ := h
      obtain ⟨hw, hq⟩ := Prod.mk.injEq .. ▸ heq
      subst hw; subst hq
      obtain ⟨hqf, hmem⟩ := ih (d (n + 1)) w1 qf1 hrec
      refine ⟨hqf, ?_⟩
      intro e he
      rcases List.mem_cons.mp he with he1 | he1
      · exact ⟨n + 1, he1, Nat.succ_ne_zero n⟩
      · exact hmem e he1

theorem wait_zero (d : Nat → Nat) (fuel : Nat) :
    waitForPendingTask d fuel 0 = some ([], 0) := by
  cases fuel <;> rfl

theorem cleanupLoop_noloop (env : Env) (s : GTags) (hl : s.loop = false) :
    cleanupLoop env s = (.ok s, []) := by
  unfold cleanupLoop
  rw [if_pos hl]

theorem cleanupLoop_ok (env : Env) (s : GTags) (hl : s.loop = true)
    (hr : env.runResult = 0) (hc : env.closeResult = 0) :
    cleanupLoop env s =
      (.ok { s with loop := false },
       [Ev.runDefault, Ev.loopClose, Ev.freeRes .loopMem]) := by
  unfold cleanupLoop
  rw [if_neg (by simp [hl]), if_neg (by simp [hr]), if_neg (by simp [hc])]

theorem cleanupLoop_abort (env : Env) (s : GTags) (hl : s.loop = true)
    (h : env.runResult ≠ 0 ∨ env.closeResult ≠ 0) :
    cleanupLoop env s = (.aborted, [Ev.runDefault, Ev.abortEv]) := by
  unfold cleanupLoop
  rw [if_neg (by simp [hl])]
  by_cases hr : env.runResult = 0
  · rcases h with h | h
    · exact absurd hr h
    · rw [if_neg (by simp [hr]), if_pos h]
  · rw [if_pos hr]

theorem atExit_ok_eq (env : Env) (s : GTags) (w : List Ev) (qf : Nat)
    (s2 : GTags) (e2 : List Ev)
    (hw : waitForPendingTask env.drain env.fuel env.q0 = some (w, qf))
    (hc : cleanupLoop env { s with shutdown := true } = (.ok s2, e2)) :
    atExit env s =
      some (.ok (atExitStage2 s2).1,
            preEvs w ++ e2 ++ (atExitStage2 s2).2 ++ [Ev.libShutdown]) := by
  simp only [atExit, hw, atExitStage1, hc, preEvs]

theorem atExit_abort_eq (env : Env) (s : GTags) (w : List Ev) (qf : Nat)
    (e2 : List Ev)
    (hw : waitForPendingTask env.drain env.fuel env.q0 = some (w, qf))
    (hc : cleanupLoop env { s with shutdown := true } = (.aborted, e2)) :
    atExit env s = some (.aborted, preEvs w ++ e2) := by
  simp only [atExit, hw, atExitStage1, hc, preEvs]

theorem atExit_inv (env : Env) (s : GTags) (o : Outcome) (tr : List Ev)
    (h : atExit env s = some (o, tr)) :
    ∃ w, waitForPendingTask env.drain env.fuel env.q0 = some (w, 0) ∧
      ∀ e ∈ w, ∃ k, e = Ev.runOnce k ∧ k ≠ 0 := by
  unfold atExit at h
  cases hw : waitForPendingTask env.drain env.fuel env.q0 with
  | none => rw [hw] at h; exact Option.noConfusion h
  | some p =>
    obtain ⟨w1, qf1⟩ := p
    obtain ⟨hqf, hmem⟩ := wait_spec env.drain env.fuel env.q0 w1 qf1 hw
    subst hqf
    exact ⟨w1, rfl, hmem⟩

theorem freeIf_mem (b : Bool) (r : Res) (e : Ev) (h : e ∈ freeIf b r) :
    e = Ev.freeRes r := by
  cases b with
  | false => simp [freeIf] at h
  | true => simpa [freeIf] using h

theorem freeIf_sublist (b : Bool) (r : Res) :
    List.Sublist (freeIf b r) [Ev.freeRes r] := by
  cases b with
  | false => simp [freeIf]
  | true => simp [freeIf]

theorem freeIf_filter (b : Bool) (r : Res) :
    (freeIf b r).filter isCloseOrFree = freeIf b r := by
  cases b with
  | false => simp [freeIf]
  | true => simp [freeIf, isCloseOrFree]

theorem freeIf_true (r : Res) : freeIf true r = [Ev.freeRes r] := rfl

theorem stage2_shutdown (s : GTags) : (atExitStage2 s).1.shutdown = s.shutdown := rfl

theorem stage2_mem (s : GTags) (e : Ev) (h : e ∈ (atExitStage2 s).2) :
    e ∈ teardownEvs := by
  simp only [atExitStage2, List.mem_append, List.mem_cons, List.not_mem_nil] at h
  rcases h with ((((h | h) | h) | h) | h) | h | h | h
  · rw [freeIf_mem _ _ _ h]; decide
  · rw [freeIf_mem _ _ _ h]; decide
  · rw [freeIf_mem _ _ _ h]; decide
  · rw [freeIf_mem _ _ _ h]; decide
  · rw [freeIf_mem _ _ _ h]; decide
  · rw [h]; decide
  · rw [h]; decide
  · exact absurd h (by simp)

end TagsLsp

namespace TagsLsp

/-! ### Claims C4, C5, C10 -/

/-- C4: at reactor destruction (`_cleanup_loop` with a live loop), the
process aborts exactly when the reactor reports remaining activity — the
final `uv_run` returns non-zero or `uv_loop_close` fails; in particular,
when both report 0 (all handles closed and drained), the abort branches are
not taken. -/
theorem c4_cleanup_loop_abort_iff (env : Env) (s : GTags) (hl : s.loop = true) :
    (cleanupLoop env s).1 = Outcome.aborted ↔
      (env.runResult ≠ 0 ∨ env.closeResult ≠ 0) := by
  by_cases hr : env.runResult = 0
  · by_cases hc : env.closeResult = 0
    · rw [cleanupLoop_ok env s hl hr hc]
      simp [hr, hc]
    · rw [cleanupLoop_abort env s hl (Or.inr hc)]
      simp [hc]
  · rw [cleanupLoop_abort env s hl (Or.inl hr)]
    simp [hr]

/-- Witness for C4 at concrete inputs: with a non-zero `uv_run` result the
cleanup aborts; with a quiescent reactor it does not. -/
theorem c4_witness :
    (cleanupLoop envAbortW gFullW).1 = Outcome.aborted ∧
    ¬ (cleanupLoop envQuietW gFullW).1 = Outcome.aborted := by
  constructor
  · exact (c4_cleanup_loop_abort_iff envAbortW gFullW rfl).mpr (Or.inl (by decide))
  · intro h
    rcases (c4_cleanup_loop_abort_iff envQuietW gFullW rfl).mp h with h1 | h1
    · exact h1 (by decide)
    · exact h1 (by decide)

/-- C5 counterexample: running the exit-notifier callback `_on_exit_notify`
on a state where shutdown has not begun requests a reactor stop but leaves
the shutdown flag unset — the callback does not itself set `ShutdownFlag`,
contradicting the claim that the callback sets the flag and starts the
orchestrator. -/
theorem c5_counterexample :
    onExitNotify gtagsPreParse = { gtagsPreParse with stopRequested := true } ∧
    (onExitNotify gtagsPreParse).shutdown = false := by
  exact ⟨rfl, rfl⟩

/-- C5 (amended): when the exit notifier is triggered, the reactor runs the
fixed callback `_on_exit_notify`, whose sole effect is to stop the reactor
(`uv_stop`); the `ShutdownFlag` is then set — as the first step — by the
shutdown orchestrator `_at_exit`, which runs after the stopped main loop
returns, and the orchestrator's final state has the flag set. -/
theorem c5_exit_notify_stops_then_orchestrates (s : GTags) (env : Env)
    (o : Outcome) (tr : List Ev) :
    onExitNotify s = { s with stopRequested := true } ∧
    (atExit env s = some (o, tr) →
      (∃ r, tr = Ev.setShutdownFlag :: r) ∧
      (∀ s1, o = .ok s1 → s1.shutdown = true)) := by
  refine ⟨rfl, ?_⟩
  intro h
  obtain ⟨w, hw, _⟩ := atExit_inv env s o tr h
  cases hc : cleanupLoop env { s with shutdown := true } with
  | mk oc e2 =>
    cases oc with
    | aborted =>
      rw [atExit_abort_eq env s w 0 e2 hw hc] at h
      obtain ⟨ho, htr⟩ := Prod.mk.injEq .. ▸ Option.some.injEq .. ▸ h
      constructor
      · exact ⟨_, by rw [← htr]; rfl⟩
      · intro s1 hs1; rw [← ho] at hs1; exact Outcome.noConfusion hs1
    | ok s2 =>
      rw [atExit_ok_eq env s w 0 s2 e2 hw hc] at h
      obtain ⟨ho, htr⟩ := Prod.mk.injEq .. ▸ Option.some.injEq .. ▸ h
      constructor
      · exact ⟨_, by rw [← htr]; rfl⟩
      · intro s1 hs1
        rw [← ho] at hs1
        obtain hs2 := Outcome.ok.injEq .. ▸ hs1
        rw [← hs2, stage2_shutdown]
        have hloop : ({ s with shutdown := true } : GTags).shutdown = true := rfl
        by_cases hl : ({ s with shutdown := true } : GTags).loop = false
        · rw [cleanupLoop_noloop env _ hl] at hc
          obtain ⟨hs3, _⟩ := Prod.mk.injEq .. ▸ hc
          obtain hs4 := Outcome.ok.injEq .. ▸ hs3
          rw [← hs4]
        · have hl2 : ({ s with shutdown := true } : GTags).loop = true := by
            revert hl; cases ({ s with shutdown := true } : GTags).loop <;> simp
          by_cases hr : env.runResult = 0
          · by_cases hcr : env.closeResult = 0
            · rw [cleanupLoop_ok env _ hl2 hr hcr] at hc
              obtain ⟨hs3, _⟩ := Prod.mk.injEq .. ▸ hc
              obtain hs4 := Outcome.ok.injEq .. ▸ hs3
              rw [← hs4]
            · rw [cleanupLoop_abort env _ hl2 (Or.inr hcr)] at hc
              obtain ⟨hs3, _⟩ := Prod.mk.injEq .. ▸ hc
              exact Outcome.noConfusion hs3
          · rw [cleanupLoop_abort env _ hl2 (Or.inl hr)] at hc
            obtain ⟨hs3, _⟩ := Prod.mk.injEq .. ▸ hc
            exact Outcome.noConfusion hs3

/-- Witness for C5 (amended) at concrete inputs. -/
theorem c5_witness :
    (∃ r, trQuietW = Ev.setShutdownFlag :: r) ∧
    (∀ s1, Outcome.ok gEndW = .ok s1 → s1.shutdown = true) :=
  (c5_exit_notify_stops_then_orchestrates gtagsPreParse envQuietW
    (.ok gEndW) trQuietW).2 (by decide)

/-- C10: a command-line argument matching none of the recognized options is
silently ignored by the option loop — no exit, no change to the transport or
log configuration, parsing continues. -/
theorem c10_unrecognized_ignored (st : ParseState) (a : Arg)
    (h : ¬ recognizedOpt a) :
    parseArg st a = (st, none) := by
  unfold recognizedOpt at h
  push_neg at h
  obtain ⟨h1, h2, h3, h4, h5, h6, h7⟩ := h
  unfold parseArg
  rw [if_neg (by rintro (hx | hx); exact h1 hx; exact h2 hx),
      if_neg h3, if_neg h4, if_neg h5, if_neg h6, if_neg h7]

/-- Witness for C10: `--verbose` is unrecognized and leaves the parse state
unchanged. -/
theorem c10_witness :
    ¬ recognizedOpt "--verbose".data ∧
    parseArg initPS "--verbose".data = (initPS, none) :=
  ⟨by decide, c10_unrecognized_ignored initPS "--verbose".data (by decide)⟩

end TagsLsp

namespace TagsLsp

/-! ### Claim C9: last transport selector wins -/

theorem parseArgs_ioType (args : List Arg) :
    ∀ st st1, parseArgs st args = (st1, none) →
      st1.ioType = args.foldl (fun acc a => (selectorOf a).getD acc) st.ioType := by
  induction args with
  | nil =>
    intro st st1 h
    obtain ⟨hs, _⟩ := Prod.mk.injEq .. ▸ h
    rw [← hs]
    rfl
  | cons a rest ih =>
    intro st st1 h
    rw [List.foldl_cons]
    by_cases h1 : a = hFlag ∨ a = helpFlag
    · have hpa : parseArg st a = (st, some .helpExit) := by
        unfold parseArg; rw [if_pos h1]
      simp only [parseArgs, hpa] at h
      obtain ⟨_, hnone⟩ := Prod.mk.injEq .. ▸ h
      exact Option.noConfusion hnone
    · by_cases h2 : a = stdioFlag
      · have hpa : parseArg st a = ({ st with ioType := .stdio }, none) := by
          unfold parseArg; rw [if_neg h1, if_pos h2]
        have hsel : selectorOf a = some .stdio := by
          unfold selectorOf; rw [if_pos h2]
        simp only [parseArgs, hpa] at h
        rw [hsel]
        exact ih _ _ h
      · by_cases h3 : pipeOpt <+: a
        · have hpa : parseArg st a = ({ st with ioType := .pipe (a.drop 7) }, none) := by
            unfold parseArg; rw [if_neg h1, if_neg h2, if_pos h3]
          have hsel : selectorOf a = some (.pipe (a.drop 7)) := by
            unfold selectorOf; rw [if_neg h2, if_pos h3]
          simp only [parseArgs, hpa] at h
          rw [hsel]
          exact ih _ _ h
        · by_cases h4 : portOpt <+: a
          · cases hs : sscanfInt (a.drop 7) with
            | none =>
              have hpa : parseArg st a = (st, some (.portError (a.drop 7))) := by
                unfold parseArg; rw [if_neg h1, if_neg h2, if_neg h3, if_pos h4, hs]
              simp only [parseArgs, hpa] at h
              obtain ⟨_, hnone⟩ := Prod.mk.injEq .. ▸ h
              exact Option.noConfusion hnone
            | some n =>
              have hpa : parseArg st a = ({ st with ioType := .port n }, none) := by
                unfold parseArg; rw [if_neg h1, if_neg h2, if_neg h3, if_pos h4, hs]
              have hsel : selectorOf a = some (.port n) := by
                unfold selectorOf; rw [if_neg h2, if_neg h3, if_pos h4, hs]
                rfl
              simp only [parseArgs, hpa] at h
              rw [hsel]
              exact ih _ _ h
          · have hsel : selectorOf a = none := by
              unfold selectorOf; rw [if_neg h2, if_neg h3, if_neg h4]
            rw [hsel]
            by_cases h5 : logdirOpt <+: a
            · have hpa : parseArg st a = ({ st with logdir := some (a.drop 9) }, none) := by
                unfold parseArg; rw [if_neg h1, if_neg h2, if_neg h3, if_neg h4, if_pos h5]
              simp only [parseArgs, hpa] at h
              exact ih { st with logdir := some (a.drop 9) } st1 h
            · by_cases h6 : logfileOpt <+: a
              · have hpa : parseArg st a = ({ st with logfile := some (a.drop 10) }, none) := by
                  unfold parseArg
                  rw [if_neg h1, if_neg h2, if_neg h3, if_neg h4, if_neg h5, if_pos h6]
                simp only [parseArgs, hpa] at h
                exact ih { st with logfile := some (a.drop 10) } st1 h
              · have hpa : parseArg st a = (st, none) := by
                  unfold parseArg
                  rw [if_neg h1, if_neg h2, if_neg h3, if_neg h4, if_neg h5, if_neg h6]
                simp only [parseArgs, hpa] at h
                exact ih _ _ h

/-- C9: whenever `_parser_command_line_options` completes (does not exit),
the transport configuration it produces is the one selected by the last
transport selector among `--stdio`, `--pipe=<path>`, `--port=<number>` in
the argument vector, and stdio when none appears. -/
theorem c9_last_selector_wins (args : List Arg)
    (h : (parserCommandLineOptions args).2 = none) :
    (parserCommandLineOptions args).1.ioType = lastSelected args := by
  unfold parserCommandLineOptions at *
  cases hq : parseArgs initPS args with
  | mk st1 e =>
    rw [hq] at h
    simp only at h
    subst h
    exact parseArgs_ioType args initPS st1 hq

/-- Witness for C9: with `--stdio --pipe=/p --port=8080` the last selector,
`--port=8080`, wins. -/
theorem c9_witness :
    (parserCommandLineOptions c9ArgsW).1.ioType = lastSelected c9ArgsW ∧
    lastSelected c9ArgsW = IoType.port 8080 :=
  ⟨c9_last_selector_wins c9ArgsW (by decide), by decide⟩

end TagsLsp

namespace TagsLsp

/-! ### Claims C1, C2, C7: orchestrator trace properties -/

theorem some_pair_inj {α β : Type} {a c : α} {b d : β}
    (h : (some (a, b)) = some (c, d)) : a = c ∧ b = d := by
  simp only [Option.some.injEq, Prod.mk.injEq] at h
  exact h

theorem preEvs_close_mem (w : List Ev)
    (hmem : ∀ e ∈ w, ∃ k, e = Ev.runOnce k ∧ k ≠ 0)
    (hd : HandleId) (h : Ev.closeHandle hd ∈ preEvs w) :
    Ev.closeHandle hd ∈ stage1Evs := by
  unfold preEvs at h
  rcases List.mem_append.mp h with h1 | h1
  · rcases List.mem_append.mp h1 with h2 | h2
    · rcases List.mem_append.mp h2 with h3 | h3
      · simp at h3
      · obtain ⟨k, hk, _⟩ := hmem _ h3
        exact absurd hk (by simp)
    · simp at h2
  · exact h1

theorem atExit_tail (env : Env) (s : GTags) (o : Outcome) (tr : List Ev)
    (w : List Ev)
    (hw : waitForPendingTask env.drain env.fuel env.q0 = some (w, 0))
    (h : atExit env s = some (o, tr)) :
    ∃ tail, tr = preEvs w ++ tail := by
  cases hc : cleanupLoop env { s with shutdown := true } with
  | mk oc e2 =>
    cases oc with
    | aborted =>
      rw [atExit_abort_eq env s w 0 e2 hw hc] at h
      obtain ⟨_, htr⟩ := some_pair_inj h
      exact ⟨e2, htr.symm⟩
    | ok s2 =>
      rw [atExit_ok_eq env s w 0 s2 e2 hw hc] at h
      obtain ⟨_, htr⟩ := some_pair_inj h
      exact ⟨e2 ++ (atExitStage2 s2).2 ++ [Ev.libShutdown],
             by rw [← htr]; simp [List.append_assoc]⟩

/-- C1: whenever `_at_exit` completes, its trace begins with the shutdown
flag and the cancellation, followed by the drain loop — one `uv_run ONCE`
reactor iteration per observation of a non-zero work-queue size, the loop
returning only when the size has reached zero — and only after that drain do
the handle-close requests (and all later teardown steps) occur. -/
theorem c1_drain_before_close (env : Env) (s : GTags) (o : Outcome)
    (tr : List Ev) (h : atExit env s = some (o, tr)) :
    ∃ w, waitForPendingTask env.drain env.fuel env.q0 = some (w, 0) ∧
      (∀ e ∈ w, ∃ k, e = Ev.runOnce k ∧ k ≠ 0) ∧
      ∃ rest, tr = [Ev.setShutdownFlag, Ev.cancelAll] ++ w ++
          [Ev.methodCleanup] ++ rest ∧
        ∀ hd, Ev.closeHandle hd ∈ tr → Ev.closeHandle hd ∈ rest := by
  obtain ⟨w, hw, hmem⟩ := atExit_inv env s o tr h
  obtain ⟨tail, htr⟩ := atExit_tail env s o tr w hw h
  refine ⟨w, hw, hmem, stage1Evs ++ tail, ?_, ?_⟩
  · rw [htr]
    simp [preEvs, List.append_assoc]
  · intro hd hcm
    rw [htr] at hcm
    rcases List.mem_append.mp hcm with hin | hin
    · exact List.mem_append.mpr (Or.inl (preEvs_close_mem w hmem hd hin))
    · exact List.mem_append.mpr (Or.inr hin)

/-- Witness for C1 at concrete inputs: two outstanding work units, drained
by two reactor iterations, before the close requests. -/
theorem c1_witness :
    ∃ w, waitForPendingTask envDrainW.drain envDrainW.fuel envDrainW.q0 =
        some (w, 0) ∧
      (∀ e ∈ w, ∃ k, e = Ev.runOnce k ∧ k ≠ 0) ∧
      ∃ rest, trFullW = [Ev.setShutdownFlag, Ev.cancelAll] ++ w ++
          [Ev.methodCleanup] ++ rest ∧
        ∀ hd, Ev.closeHandle hd ∈ trFullW → Ev.closeHandle hd ∈ rest :=
  c1_drain_before_close envDrainW gFullW (.ok gEndW) trFullW (by decide)

end TagsLsp

namespace TagsLsp

theorem pair_inj {α β : Type} {a c : α} {b d : β} (h : (a, b) = (c, d)) :
    a = c ∧ b = d := by
  simp only [Prod.mk.injEq] at h
  exact h

theorem cleanupLoop_abort_inv (env : Env) (s : GTags) (e2 : List Ev)
    (h : cleanupLoop env s = (.aborted, e2)) :
    e2 = [Ev.runDefault, Ev.abortEv] := by
  unfold cleanupLoop at h
  by_cases hl : s.loop = false
  · rw [if_pos hl] at h
    exact absurd (pair_inj h).1 (by simp)
  · rw [if_neg hl] at h
    by_cases hr : env.runResult ≠ 0
    · rw [if_pos hr] at h
      exact (pair_inj h).2.symm
    · rw [if_neg hr] at h
      by_cases hcr : env.closeResult ≠ 0
      · rw [if_pos hcr] at h
        exact (pair_inj h).2.symm
      · rw [if_neg hcr] at h
        exact absurd (pair_inj h).1 (by simp)

theorem cleanupLoop_ok_inv (env : Env) (s s2 : GTags) (e2 : List Ev)
    (h : cleanupLoop env s = (.ok s2, e2)) :
    (e2 = [] ∧ s2 = s ∧ s.loop = false) ∨
    (e2 = [Ev.runDefault, Ev.loopClose, Ev.freeRes .loopMem] ∧
     s2 = { s with loop := false }) := by
  unfold cleanupLoop at h
  by_cases hl : s.loop = false
  · rw [if_pos hl] at h
    obtain ⟨ho, he⟩ := pair_inj h
    exact Or.inl ⟨he.symm, ((Outcome.ok.injEq ..).mp ho).symm, hl⟩
  · rw [if_neg hl] at h
    by_cases hr : env.runResult ≠ 0
    · rw [if_pos hr] at h
      exact absurd (pair_inj h).1 (by simp)
    · rw [if_neg hr] at h
      by_cases hcr : env.closeResult ≠ 0
      · rw [if_pos hcr] at h
        exact absurd (pair_inj h).1 (by simp)
      · rw [if_neg hcr] at h
        obtain ⟨ho, he⟩ := pair_inj h
        exact Or.inr ⟨he.symm, ((Outcome.ok.injEq ..).mp ho).symm⟩

theorem preEvs_filter (w : List Ev)
    (hmem : ∀ e ∈ w, ∃ k, e = Ev.runOnce k ∧ k ≠ 0) :
    (preEvs w).filter isCloseOrFree =
      [Ev.closeHandle .sigint, Ev.closeHandle .exitNotifier] := by
  have hwf : w.filter isCloseOrFree = [] := by
    rw [List.filter_eq_nil_iff]
    intro e he
    obtain ⟨k, hk, _⟩ := hmem e he
    rw [hk]
    show ¬ (false = true)
    simp
  simp only [preEvs, stage1Evs, List.filter_append, hwf]
  rfl

/-- C2: a second shutdown trigger after shutdown has begun is a no-op — the
exit-notifier callback is idempotent, so any further trigger leaves the
state (and hence the subsequent teardown) unchanged — and the single
teardown `_at_exit` performs never closes a handle or frees an owned
resource (loop, parser, config strings, signal/notifier storage) twice: its
close/free events are pairwise distinct. -/
theorem c2_second_trigger_noop (s : GTags) (env : Env) (o : Outcome)
    (tr : List Ev) :
    onExitNotify (onExitNotify s) = onExitNotify s ∧
    (atExit env s = some (o, tr) → (tr.filter isCloseOrFree).Nodup) := by
  refine ⟨rfl, ?_⟩
  intro h
  obtain ⟨w, hw, hmem⟩ := atExit_inv env s o tr h
  have hpre := preEvs_filter w hmem
  cases hc : cleanupLoop env { s with shutdown := true } with
  | mk oc e2 =>
    cases oc with
    | aborted =>
      rw [atExit_abort_eq env s w 0 e2 hw hc] at h
      obtain ⟨_, htr⟩ := some_pair_inj h
      rw [← htr, cleanupLoop_abort_inv env _ e2 hc]
      simp only [List.filter_append, hpre]
      decide
    | ok s2 =>
      rw [atExit_ok_eq env s w 0 s2 e2 hw hc] at h
      obtain ⟨_, htr⟩ := some_pair_inj h
      rw [← htr]
      rcases cleanupLoop_ok_inv env _ s2 e2 hc with ⟨he2, hs2, _⟩ | ⟨he2, hs2⟩ <;>
        subst he2 <;> subst hs2 <;>
        simp only [atExitStage2, List.filter_append, hpre, freeIf_filter,
          List.append_assoc] <;>
        obtain ⟨sl, sp, sld, slf, ssg, snt, ssd, ssr⟩ := s <;>
        cases sp <;> cases sld <;> cases slf <;> cases ssg <;> cases snt <;>
        simp [freeIf] <;> decide

/-- Witness for C2 at concrete inputs: the full teardown trace from a fully
populated context has pairwise-distinct close/free events. -/
theorem c2_witness :
    onExitNotify (onExitNotify gFullW) = onExitNotify gFullW ∧
    (trFullW.filter isCloseOrFree).Nodup :=
  ⟨(c2_second_trigger_noop gFullW envDrainW (.ok gEndW) trFullW).1,
   (c2_second_trigger_noop gFullW envDrainW (.ok gEndW) trFullW).2 (by decide)⟩

end TagsLsp

namespace TagsLsp

theorem before_intro (e1 e2 : Ev) (t1 t2 tr : List Ev)
    (h : tr = t1 ++ t2) (h1 : e1 ∈ t1) (h2 : e2 ∈ t2) : before e1 e2 tr :=
  ⟨t1, t2, h, h1, h2⟩

/-- C7: in a completed teardown from a fully populated context, owned heap
state is freed in dependency order — the parser state is freed before either
configuration string, and the signal/notifier handle storage is freed only
after the reactor has been destroyed (`uv_loop_close`). -/
theorem c7_free_order (env : Env) (s : GTags) (s1 : GTags) (tr : List Ev)
    (hp : s.parser = true) (hld : s.logdir.isSome = true)
    (hlf : s.logfile.isSome = true) (hl : s.loop = true)
    (hsg : s.sigint = true) (hnt : s.exitNotifier = true)
    (h : atExit env s = some (.ok s1, tr)) :
    before (Ev.freeRes .parserRes) (Ev.freeRes .logdirStr) tr ∧
    before (Ev.freeRes .parserRes) (Ev.freeRes .logfileStr) tr ∧
    before Ev.loopClose (Ev.freeRes .sigintMem) tr ∧
    before Ev.loopClose (Ev.freeRes .exitNotifierMem) tr := by
  obtain ⟨w, hw, _⟩ := atExit_inv env s (.ok s1) tr h
  cases hc : cleanupLoop env { s with shutdown := true } with
  | mk oc e2 =>
    cases oc with
    | aborted =>
      rw [atExit_abort_eq env s w 0 e2 hw hc] at h
      exact absurd (some_pair_inj h).1 (by simp)
    | ok s2 =>
      rw [atExit_ok_eq env s w 0 s2 e2 hw hc] at h
      obtain ⟨_, htr⟩ := some_pair_inj h
      rcases cleanupLoop_ok_inv env _ s2 e2 hc with ⟨_, _, hl2⟩ | ⟨he2, hs2⟩
      · rw [show ({ s with shutdown := true } : GTags).loop = s.loop from rfl, hl] at hl2
        exact Bool.noConfusion hl2
      · have hstage2 : (atExitStage2 s2).2 =
            [Ev.freeRes .parserRes, Ev.freeRes .logdirStr, Ev.freeRes .logfileStr,
             Ev.freeRes .sigintMem, Ev.freeRes .exitNotifierMem,
             Ev.cleanupWorkspaceFolders, Ev.cleanupClientCapabilities] := by
          rw [hs2]
          show freeIf s.parser .parserRes ++ freeIf s.logdir.isSome .logdirStr ++
              freeIf s.logfile.isSome .logfileStr ++ freeIf s.sigint .sigintMem ++
              freeIf s.exitNotifier .exitNotifierMem ++
              [Ev.cleanupWorkspaceFolders, Ev.cleanupClientCapabilities] = _
          rw [hp, hld, hlf, hsg, hnt]
          rfl
        rw [he2, hstage2] at htr
        refine ⟨?_, ?_, ?_, ?_⟩
        · refine before_intro _ _
            (preEvs w ++ [Ev.runDefault, Ev.loopClose, Ev.freeRes .loopMem,
              Ev.freeRes .parserRes])
            ([Ev.freeRes .logdirStr, Ev.freeRes .logfileStr, Ev.freeRes .sigintMem,
              Ev.freeRes .exitNotifierMem, Ev.cleanupWorkspaceFolders,
              Ev.cleanupClientCapabilities, Ev.libShutdown]) tr ?_ (by simp) (by simp)
          rw [← htr]
          simp
        · refine before_intro _ _
            (preEvs w ++ [Ev.runDefault, Ev.loopClose, Ev.freeRes .loopMem,
              Ev.freeRes .parserRes, Ev.freeRes .logdirStr])
            ([Ev.freeRes .logfileStr, Ev.freeRes .sigintMem,
              Ev.freeRes .exitNotifierMem, Ev.cleanupWorkspaceFolders,
              Ev.cleanupClientCapabilities, Ev.libShutdown]) tr ?_ (by simp) (by simp)
          rw [← htr]
          simp
        · refine before_intro _ _
            (preEvs w ++ [Ev.runDefault, Ev.loopClose])
            ([Ev.freeRes .loopMem, Ev.freeRes .parserRes, Ev.freeRes .logdirStr,
              Ev.freeRes .logfileStr, Ev.freeRes .sigintMem,
              Ev.freeRes .exitNotifierMem, Ev.cleanupWorkspaceFolders,
              Ev.cleanupClientCapabilities, Ev.libShutdown]) tr ?_ (by simp) (by simp)
          rw [← htr]
          simp
        · refine before_intro _ _
            (preEvs w ++ [Ev.runDefault, Ev.loopClose])
            ([Ev.freeRes .loopMem, Ev.freeRes .parserRes, Ev.freeRes .logdirStr,
              Ev.freeRes .logfileStr, Ev.freeRes .sigintMem,
              Ev.freeRes .exitNotifierMem, Ev.cleanupWorkspaceFolders,
              Ev.cleanupClientCapabilities, Ev.libShutdown]) tr ?_ (by simp) (by simp)
          rw [← htr]
          simp

/-- Witness for C7 at concrete inputs, on the full teardown trace. -/
theorem c7_witness :
    before (Ev.freeRes .parserRes) (Ev.freeRes .logdirStr) trFullW ∧
    before (Ev.freeRes .parserRes) (Ev.freeRes .logfileStr) trFullW ∧
    before Ev.loopClose (Ev.freeRes .sigintMem) trFullW ∧
    before Ev.loopClose (Ev.freeRes .exitNotifierMem) trFullW :=
  c7_free_order envDrainW gFullW gEndW trFullW rfl rfl rfl rfl rfl rfl (by decide)

end TagsLsp

namespace TagsLsp

/-! ### Claims C6, C8: early exits from option parsing -/

theorem parseArgs_append_ok (xs : List Arg) :
    ∀ ys st st1, parseArgs st xs = (st1, none) →
      parseArgs st (xs ++ ys) = parseArgs st1 ys := by
  induction xs with
  | nil =>
    intro ys st st1 h
    obtain ⟨hs, _⟩ := pair_inj h
    rw [List.nil_append, hs]
  | cons a xs ih =>
    intro ys st st1 h
    rw [List.cons_append]
    cases hpa : parseArg st a with
    | mk st2 e =>
      cases e with
      | none =>
        simp only [parseArgs, hpa] at h ⊢
        exact ih ys st2 st1 h
      | some ex =>
        simp only [parseArgs, hpa] at h
        exact absurd (pair_inj h).2 (by simp)

theorem parseArg_help (st : ParseState) (a : Arg)
    (ha : a = hFlag ∨ a = helpFlag) :
    parseArg st a = (st, some .helpExit) := by
  unfold parseArg
  rw [if_pos ha]

theorem parseArg_port_bad (st : ParseState) (v : Arg)
    (hscan : sscanfInt v = none) :
    parseArg st (portOpt ++ v) = (st, some (.portError v)) := by
  have hdrop : (portOpt ++ v).drop 7 = v := by
    rw [show (7 : Nat) = portOpt.length from rfl]
    exact List.drop_left portOpt v
  have hne1 : ¬ (portOpt ++ v = hFlag) := by
    intro hx
    have hlen := congrArg List.length hx
    rw [List.length_append] at hlen
    rw [show portOpt.length = 7 from rfl, show hFlag.length = 2 from rfl] at hlen
    omega
  have hne2 : ¬ (portOpt ++ v = helpFlag) := by
    intro hx
    have hlen := congrArg List.length hx
    rw [List.length_append] at hlen
    rw [show portOpt.length = 7 from rfl, show helpFlag.length = 6 from rfl] at hlen
    omega
  have hne3 : ¬ (portOpt ++ v = stdioFlag) := by
    intro hx
    have h7 := congrArg (List.take 7) hx
    rw [show (7 : Nat) = portOpt.length from rfl, List.take_left] at h7
    exact absurd h7 (by decide)
  have hne4 : ¬ (pipeOpt <+: portOpt ++ v) := by
    intro hx
    have hp : portOpt <+: portOpt ++ v := ⟨v, rfl⟩
    have hpp := List.prefix_of_prefix_length_le hx hp (by decide)
    exact absurd (List.IsPrefix.eq_of_length hpp (by decide)) (by decide)
  have hport : portOpt <+: portOpt ++ v := ⟨v, rfl⟩
  unfold parseArg
  rw [if_neg (by rintro (hx | hx); exact hne1 hx; exact hne2 hx),
      if_neg hne3, if_neg hne4, if_pos hport, hdrop, hscan]

theorem atExit_quiet (env : Env) (s : GTags) (hq : env.q0 = 0)
    (hr : env.runResult = 0) (hc : env.closeResult = 0) :
    ∃ s2 tr, atExit env s = some (.ok s2, tr) := by
  have hw : waitForPendingTask env.drain env.fuel env.q0 = some ([], 0) := by
    rw [hq]
    exact wait_zero env.drain env.fuel
  by_cases hl : ({ s with shutdown := true } : GTags).loop = false
  · exact ⟨_, _, atExit_ok_eq env s [] 0 _ _ hw (cleanupLoop_noloop env _ hl)⟩
  · have hl2 : ({ s with shutdown := true } : GTags).loop = true := by
      revert hl
      cases ({ s with shutdown := true } : GTags).loop <;> simp
    exact ⟨_, _, atExit_ok_eq env s [] 0 _ _ hw (cleanupLoop_ok env _ hl2 hr hc)⟩

theorem atExit_events (env : Env) (s : GTags) (o : Outcome) (tr : List Ev)
    (h : atExit env s = some (o, tr)) :
    ∀ e ∈ tr, e ∈ teardownEvs ∨ ∃ k, e = Ev.runOnce k := by
  obtain ⟨w, hw, hmem⟩ := atExit_inv env s o tr h
  have hpreEv : ∀ e ∈ preEvs w, e ∈ teardownEvs ∨ ∃ k, e = Ev.runOnce k := by
    intro e he
    unfold preEvs at he
    rcases List.mem_append.mp he with h1 | h1
    · rcases List.mem_append.mp h1 with h2 | h2
      · rcases List.mem_append.mp h2 with h3 | h3
        · exact Or.inl
            ((by decide : ∀ x ∈ [Ev.setShutdownFlag, Ev.cancelAll],
              x ∈ teardownEvs) e h3)
        · obtain ⟨k, hk, _⟩ := hmem _ h3
          exact Or.inr ⟨k, hk⟩
      · exact Or.inl
          ((by decide : ∀ x ∈ [Ev.methodCleanup], x ∈ teardownEvs) e h2)
    · exact Or.inl
        ((by decide : ∀ x ∈ stage1Evs, x ∈ teardownEvs) e h1)
  cases hcx : cleanupLoop env { s with shutdown := true } with
  | mk oc e2 =>
    cases oc with
    | aborted =>
      rw [atExit_abort_eq env s w 0 e2 hw hcx] at h
      obtain ⟨_, htr⟩ := some_pair_inj h
      rw [cleanupLoop_abort_inv env _ e2 hcx] at htr
      intro e he
      rw [← htr] at he
      rcases List.mem_append.mp he with h1 | h1
      · exact hpreEv e h1
      · exact Or.inl
          ((by decide : ∀ x ∈ [Ev.runDefault, Ev.abortEv], x ∈ teardownEvs) e h1)
    | ok s2 =>
      rw [atExit_ok_eq env s w 0 s2 e2 hw hcx] at h
      obtain ⟨_, htr⟩ := some_pair_inj h
      intro e he
      rw [← htr] at he
      rcases List.mem_append.mp he with h1 | h1
      · rcases List.mem_append.mp h1 with h2 | h2
        · rcases List.mem_append.mp h2 with h3 | h3
          · exact hpreEv e h3
          · rcases cleanupLoop_ok_inv env _ s2 e2 hcx with ⟨he2, _, _⟩ | ⟨he2, _⟩
            · rw [he2] at h3
              simp at h3
            · rw [he2] at h3
              exact Or.inl
                ((by decide : ∀ x ∈ [Ev.runDefault, Ev.loopClose,
                  Ev.freeRes .loopMem], x ∈ teardownEvs) e h3)
        · exact Or.inl (stage2_mem s2 e h2)
      · exact Or.inl
          ((by decide : ∀ x ∈ [Ev.libShutdown], x ∈ teardownEvs) e h1)

theorem atExit_no_init (env : Env) (s : GTags) (o : Outcome) (tr : List Ev)
    (h : atExit env s = some (o, tr)) :
    (∀ t, Ev.ioInit t ∉ tr) ∧ Ev.mainRun ∉ tr ∧ Ev.printUsage ∉ tr := by
  have hm := atExit_events env s o tr h
  refine ⟨?_, ?_, ?_⟩
  · intro t hmem
    rcases hm _ hmem with hT | ⟨k, hk⟩
    · simp [teardownEvs] at hT
    · exact Ev.noConfusion hk
  · intro hmem
    rcases hm _ hmem with hT | ⟨k, hk⟩
    · simp [teardownEvs] at hT
    · exact Ev.noConfusion hk
  · intro hmem
    rcases hm _ hmem with hT | ⟨k, hk⟩
    · simp [teardownEvs] at hT
    · exact Ev.noConfusion hk

end TagsLsp

namespace TagsLsp

/-- C6 counterexample: on the command line `["--port=abc"]` (quiescent
teardown oracle), the process exits with status 1, but the trace records
reactor initialization (`uv_loop_init`, main.c:289) before option parsing
ever runs — refuting the claim that the exit happens before any reactor
initialization has taken place. -/
theorem c6_counterexample :
    mainRun envQuietW [portOpt ++ "abc".data] =
      some (trBadPortW, ProcEnd.exited 1) ∧
    Ev.loopInit ∈ trBadPortW ∧ trBadPortW.head? = some Ev.loopInit := by
  refine ⟨by decide, by decide, by decide⟩

/-- C6 (amended): for every command line in which left-to-right parsing
reaches a `--port=<value>` argument whose value cannot be scanned as an
integer, the process prints the error and exits with status 1 during option
parsing — before any transport initialization and before the main reactor
run, though after reactor initialization, which the trace already
contains. -/
theorem c6_bad_port_exit (env : Env) (pre post : List Arg) (v : Arg)
    (st : ParseState) (hscan : sscanfInt v = none)
    (hpre : parseArgs initPS pre = (st, none))
    (hq : env.q0 = 0) (hr : env.runResult = 0) (hc : env.closeResult = 0) :
    ∃ tr, mainRun env (pre ++ (portOpt ++ v) :: post) =
        some (tr, ProcEnd.exited 1) ∧
      Ev.badPortMsg v ∈ tr ∧ Ev.loopInit ∈ tr ∧
      (∀ t, Ev.ioInit t ∉ tr) ∧ Ev.mainRun ∉ tr := by
  have hargs : parseArgs initPS (pre ++ (portOpt ++ v) :: post) =
      (st, some (.portError v)) := by
    rw [parseArgs_append_ok pre ((portOpt ++ v) :: post) initPS st hpre]
    simp only [parseArgs, parseArg_port_bad st v hscan]
  obtain ⟨s2, tr2, hA⟩ := atExit_quiet env
    { gtagsPreParse with logdir := st.logdir, logfile := st.logfile } hq hr hc
  obtain ⟨hio2, hmr2, _⟩ := atExit_no_init env _ _ _ hA
  refine ⟨[Ev.loopInit, Ev.sigintInit, Ev.notifierInit] ++ [Ev.badPortMsg v] ++ tr2,
    ?_, by simp, by simp, ?_, ?_⟩
  · simp only [mainRun, hargs, hA, Option.map_some']
  · intro t hmem
    rcases List.mem_append.mp hmem with h1 | h1
    · simp at h1
    · exact hio2 t h1
  · intro hmem
    rcases List.mem_append.mp hmem with h1 | h1
    · simp at h1
    · exact hmr2 h1

/-- Witness for C6 (amended) at the concrete command line `["--port=abc"]`. -/
theorem c6_witness :
    ∃ tr, mainRun envQuietW ([] ++ (portOpt ++ "abc".data) :: []) =
        some (tr, ProcEnd.exited 1) ∧
      Ev.badPortMsg "abc".data ∈ tr ∧ Ev.loopInit ∈ tr ∧
      (∀ t, Ev.ioInit t ∉ tr) ∧ Ev.mainRun ∉ tr :=
  c6_bad_port_exit envQuietW [] [] "abc".data initPS (by decide) rfl rfl rfl rfl

/-- C8 counterexample: on the command line `["--port=x", "-h"]` (quiescent
teardown oracle), the process exits with status 1 and never prints the usage
text, although the command line contains `-h` — refuting the claim as
stated for every command line containing `-h`. -/
theorem c8_counterexample :
    mainRun envQuietW [portOpt ++ "x".data, hFlag] =
      some (trPortThenHelpW, ProcEnd.exited 1) ∧
    Ev.printUsage ∉ trPortThenHelpW := by
  refine ⟨by decide, by decide⟩

/-- C8 (amended): for every command line in which left-to-right parsing
reaches `-h` or `--help` (no earlier argument exits first), the process
prints the usage text and exits with status 0, without initializing any
transport and without running the main reactor loop. -/
theorem c8_help_exit (env : Env) (pre post : List Arg) (a : Arg)
    (st : ParseState) (ha : a = hFlag ∨ a = helpFlag)
    (hpre : parseArgs initPS pre = (st, none))
    (hq : env.q0 = 0) (hr : env.runResult = 0) (hc : env.closeResult = 0) :
    ∃ tr, mainRun env (pre ++ a :: post) = some (tr, ProcEnd.exited 0) ∧
      Ev.printUsage ∈ tr ∧ Ev.mainRun ∉ tr ∧ (∀ t, Ev.ioInit t ∉ tr) := by
  have hargs : parseArgs initPS (pre ++ a :: post) = (st, some .helpExit) := by
    rw [parseArgs_append_ok pre (a :: post) initPS st hpre]
    simp only [parseArgs, parseArg_help st a ha]
  obtain ⟨s2, tr2, hA⟩ := atExit_quiet env
    { gtagsPreParse with logdir := st.logdir, logfile := st.logfile } hq hr hc
  obtain ⟨hio2, hmr2, _⟩ := atExit_no_init env _ _ _ hA
  refine ⟨[Ev.loopInit, Ev.sigintInit, Ev.notifierInit] ++ [Ev.printUsage] ++ tr2,
    ?_, by simp, ?_, ?_⟩
  · simp only [mainRun, hargs, hA, Option.map_some']
  · intro hmem
    rcases List.mem_append.mp hmem with h1 | h1
    · simp at h1
    · exact hmr2 h1
  · intro t hmem
    rcases List.mem_append.mp hmem with h1 | h1
    · simp at h1
    · exact hio2 t h1

/-- Witness for C8 (amended) at the concrete command line `["-h"]`. -/
theorem c8_witness :
    ∃ tr, mainRun envQuietW ([] ++ hFlag :: []) = some (tr, ProcEnd.exited 0) ∧
      Ev.printUsage ∈ tr ∧ Ev.mainRun ∉ tr ∧ (∀ t, Ev.ioInit t ∉ tr) :=
  c8_help_exit envQuietW [] [] hFlag initPS (Or.inl rfl) rfl rfl rfl rfl

end TagsLsp

namespace TagsLsp.Decoder

/-! ### Claim C3: chunking-independence of the frame decoder -/

theorem feedBytes_cons (s : DState) (c : Char) (r : List Char) :
    feedBytes s (c :: r) =
      ((feedBytes (step s c).1 r).1,
       (step s c).2 ++ (feedBytes (step s c).1 r).2) := rfl

theorem feedChunks_cons (s : DState) (c : List Char) (r : List (List Char)) :
    feedChunks s (c :: r) =
      ((feedChunks (feedBytes s c).1 r).1,
       (feedBytes s c).2 ++ (feedChunks (feedBytes s c).1 r).2) := rfl

theorem feedBytes_append (a : List Char) :
    ∀ (s : DState) (b : List Char),
      feedBytes s (a ++ b) =
        ((feedBytes (feedBytes s a).1 b).1,
         (feedBytes s a).2 ++ (feedBytes (feedBytes s a).1 b).2) := by
  induction a with
  | nil =>
    intro s b
    simp [feedBytes]
  | cons c r ih =>
    intro s b
    rw [List.cons_append, feedBytes_cons, ih, feedBytes_cons]
    simp [List.append_assoc]

theorem feedChunks_flatten (cs : List (List Char)) :
    ∀ s : DState, feedChunks s cs = feedBytes s cs.flatten := by
  induction cs with
  | nil =>
    intro s
    simp [feedChunks, feedBytes]
  | cons c r ih =>
    intro s
    rw [feedChunks_cons, List.flatten_cons, feedBytes_append, ih]

theorem step_header_mid (a : List Char) (c : Char)
    (hnot : ¬ termSeq <:+ (a ++ [c])) :
    step (.header a) c = (.header (a ++ [c]), []) := by
  simp only [step]
  rw [if_neg hnot]

theorem feed_header (hdr : List Char)
    (hterm : termSeq <:+ hdr)
    (hne : ∀ k, k < hdr.length → ¬ termSeq <:+ hdr.take k) :
    ∀ (bs a : List Char), a ++ bs = hdr → bs ≠ [] →
      feedBytes (.header a) bs = finishHeader hdr := by
  intro bs
  induction bs with
  | nil =>
    intro a _ hnz
    exact absurd rfl hnz
  | cons c r ih =>
    intro a hsplit _
    cases r with
    | nil =>
      have hstep : step (.header a) c = finishHeader hdr := by
        simp only [step]
        rw [hsplit, if_pos hterm]
      rw [feedBytes_cons, hstep]
      simp [feedBytes]
    | cons c2 r2 =>
      have hpr : (a ++ [c]) ++ (c2 :: r2) = hdr := by
        rw [← hsplit]
        simp
      have hlt : (a ++ [c]).length < hdr.length := by
        rw [← hpr]
        simp [List.length_append]
      have htake : hdr.take (a ++ [c]).length = a ++ [c] :=
        (List.prefix_iff_eq_take.mp ⟨c2 :: r2, hpr⟩).symm
      have hnot : ¬ termSeq <:+ (a ++ [c]) := htake ▸ hne _ hlt
      rw [feedBytes_cons, step_header_mid a c hnot, ih (a ++ [c]) hpr (by simp)]
      simp

theorem feed_body (n : Nat) :
    ∀ (bs acc : List Char), acc.length + bs.length = n → bs ≠ [] →
      feedBytes (.body n acc) bs = (.header [], [acc ++ bs]) := by
  intro bs
  induction bs with
  | nil =>
    intro acc _ hnz
    exact absurd rfl hnz
  | cons c r ih =>
    intro acc hlen _
    cases r with
    | nil =>
      have hn : (acc ++ [c]).length = n := by
        rw [List.length_append]
        simpa using hlen
      have hstep : step (.body n acc) c = (.header [], [acc ++ [c]]) := by
        simp only [step]
        rw [if_pos hn]
      rw [feedBytes_cons, hstep]
      simp [feedBytes]
    | cons c2 r2 =>
      have hn : ¬ (acc ++ [c]).length = n := by
        rw [List.length_append]
        simp only [List.length_cons, List.length_nil] at hlen ⊢
        omega
      have hrec : (acc ++ [c]).length + (c2 :: r2).length = n := by
        rw [List.length_append]
        simp only [List.length_cons, List.length_nil] at hlen ⊢
        omega
      have hstep : step (.body n acc) c = (.body n (acc ++ [c]), []) := by
        simp only [step]
        rw [if_neg hn]
      rw [feedBytes_cons, hstep, ih (acc ++ [c]) hrec (by simp)]
      simp

/-- C3: for every valid header+body byte sequence and every splitting of it
into arbitrary chunk boundaries (including one byte per feed call), the
decoder emits exactly one decoded message — exactly once, in order — whose
body bytes equal the original body, and returns to the initial state ready
for the next frame. -/
theorem c3_decoder_single_message (hdr body : List Char)
    (cs : List (List Char)) (hv : ValidFrame hdr body)
    (hj : cs.flatten = hdr ++ body) :
    feedChunks (.header []) cs = (.header [], [body]) := by
  rw [feedChunks_flatten, hj, feedBytes_append]
  have hhdr : hdr ≠ [] := by
    intro hx
    have h := hv.termEnd
    rw [hx] at h
    have h2 := List.suffix_nil.mp h
    exact absurd h2 (by decide)
  have h1 : feedBytes (.header []) hdr = finishHeader hdr :=
    feed_header hdr hv.termEnd hv.noEarly hdr [] (by simp) hhdr
  rw [h1]
  have hlen := hv.length_eq
  cases hbody : body with
  | nil =>
    rw [hbody] at hlen
    simp only [List.length_nil] at hlen
    have hfin : finishHeader hdr = (.header [], [[]]) := by
      unfold finishHeader
      rw [hlen]
    rw [hfin]
    simp [feedBytes]
  | cons b bs =>
    rw [hbody] at hlen
    simp only [List.length_cons] at hlen
    have hfin : finishHeader hdr = (.body (bs.length + 1) [], []) := by
      unfold finishHeader
      rw [hlen]
    rw [hfin,
        feed_body (bs.length + 1) (b :: bs) [] (by simp) (by simp)]
    simp

/-- Witness for C3: the spec §8 scenario — the frame
`Content-Length: 5` CRLF CRLF `HELLO` delivered as two chunks split after
byte 10 yields exactly the single message `HELLO`, via the theorem. -/
theorem c3_witness :
    feedChunks (.header []) chunksW = (.header [], [bodyW]) :=
  c3_decoder_single_message hdrW bodyW chunksW
    ⟨by decide, by decide, by decide⟩ (by decide)

end TagsLsp.Decoder
